import Mathlib

/-!
Shallow embedding of the qubes-kvm config transfer scripts:
`scripts/qubesdb-config-inject.py` (host-side Sender) and
`scripts/qubesdb-config-read.py` (guest-side Receiver).

Python strings are modelled as `List Char`; Python dicts (insertion
ordered, last-write-wins) as association lists with a `dictInsert`
operation that mirrors CPython dict update semantics.  The wire
protocol is ASCII, so the bytes/str distinction of the scripts is
collapsed: the byte buffer accumulated from the virtio port and the
decoded text are both `List Char` (decoding with errors="replace" is
the identity on the texts considered here).

`str.splitlines` is modelled for texts whose only line-boundary
character is `'\n'`; all theorems that quantify over keys and values
restrict them to contain no Python line-boundary character, so the
model and CPython agree on every input a theorem speaks about.
-/

namespace QubesKVM

/-- Python strings, modelled as lists of characters. -/
abbrev Str := List Char

/-- A Python dict from `Str` to `Str`: an insertion-ordered association
list whose keys are pairwise distinct (maintained by `dictInsert`). -/
abbrev Dict := List (Str × Str)

/-- CPython `dict.__setitem__`: updating an existing key keeps its
position and replaces its value; a new key is appended at the end. -/
def dictInsert : Dict → Str → Str → Dict
  | [], k, v => [(k, v)]
  | (k', v') :: rest, k, v =>
    if k' = k then (k, v) :: rest else (k', v') :: dictInsert rest k v

/-- Association-list lookup, modelling `d[k]` / `k in d`. -/
def dlookup (d : Dict) (k : Str) : Option Str :=
  match d with
  | [] => none
  | (k', v) :: rest => if k' = k then some v else dlookup rest k

/-- The whitespace characters removed by Python `str.strip()` (the
ASCII ones; exotic unicode whitespace does not occur in this protocol). -/
def isSpace (c : Char) : Bool :=
  c = ' ' || c = '\t' || c = '\n' || c = '\r' || c = '\x0b' || c = '\x0c'

/-- Remove trailing characters satisfying `isSpace`. -/
def dropTrailing : Str → Str
  | [] => []
  | c :: rest =>
    match dropTrailing rest with
    | [] => if isSpace c then [] else [c]
    | l => c :: l

/-- Python `str.strip()`: drop leading and trailing whitespace. -/
def strip (s : Str) : Str := dropTrailing (s.dropWhile isSpace)

/-- Python `str.splitlines()` for texts whose only line boundary is
`'\n'`: split on newlines, with no empty final line for a trailing
newline.  (CPython also breaks on `'\r'`, `'\x0b'`, `'\x0c'`, … —
theorems below exclude those characters from keys and values, so the
restriction is invisible to every stated property.) -/
def splitlines : Str → List Str
  | [] => []
  | c :: rest =>
    if c = '\n' then [] :: splitlines rest
    else
      match splitlines rest with
      | [] => [[c]]
      | l :: ls => (c :: l) :: ls

/-- The characters CPython `str.splitlines` treats as line boundaries;
keys and values in the round-trip theorems contain none of them. -/
def isLineBoundary (c : Char) : Bool :=
  c = '\n' || c = '\r' || c = '\x0b' || c = '\x0c' ||
  c = '\x1c' || c = '\x1d' || c = '\x1e' || c = '\x85' ||
  c = '\u2028' || c = '\u2029'

/-- Python `line.split("=", 1)` guarded by `"=" in line`: `none` when
the string has no `'='`, otherwise the parts before and after the
first `'='`. -/
def splitFirstEq : Str → Option (Str × Str)
  | [] => none
  | c :: rest =>
    if c = '=' then some ([], rest)
    else
      match splitFirstEq rest with
      | none => none
      | some (k, v) => some (c :: k, v)

/-- `l.isPrefixOf`-style Boolean check via explicit recursion. -/
def prefixOfB : Str → Str → Bool
  | [], _ => true
  | _ :: _, [] => false
  | a :: as, b :: bs => a = b && prefixOfB as bs

/-- Python `needle in hay` on strings: substring containment. -/
def containsSub (needle : Str) : Str → Bool
  | [] => prefixOfB needle []
  | c :: rest => prefixOfB needle (c :: rest) || containsSub needle rest

/-! ## Wire format -/

/-- `QUBESDB_HEADER`, identical in both scripts. -/
def QUBESDB_HEADER : Str := "QUBESDB-KVM-CONFIG\n".data

/-- `QUBESDB_FOOTER`, identical in both scripts. -/
def QUBESDB_FOOTER : Str := "\nQUBESDB-END\n".data

/-- One iteration of the parse loop of `read_from_virtio`
(qubesdb-config-read.py lines 54-60): strip the line, skip exact
marker matches and blank lines, split every other line containing
`'='` on its first `'='`, silently ignore the rest. -/
def parseLine (entries : Dict) (line : Str) : Dict :=
  if strip line = "QUBESDB-KVM-CONFIG".data ∨ strip line = "QUBESDB-END".data
      ∨ strip line = [] then
    entries
  else
    match splitFirstEq (strip line) with
    | some (k, v) => dictInsert entries k v
    | none => entries

/-- The Receiver's line parser applied to an already-split line list. -/
def parseLines (ls : List Str) : Dict := ls.foldl parseLine []

/-- Decode-and-parse of the accumulated buffer
(qubesdb-config-read.py lines 53-60). -/
def parseFrame (text : Str) : Dict := parseLines (splitlines text)

/-- One `payload += f"{k}={v}\n"` line of `inject`
(qubesdb-config-inject.py line 25). -/
def entryLine (kv : Str × Str) : Str := kv.1 ++ '=' :: kv.2 ++ ['\n']

/-- The Sender's frame construction, `inject` lines 23-26: header,
one `key=value` line per entry in dict iteration order, footer. -/
def renderPayload (entries : Dict) : Str :=
  (entries.foldl (fun payload kv => payload ++ entryLine kv) QUBESDB_HEADER)
    ++ QUBESDB_FOOTER

/-! ## Receiver: wait phase, read phase, cache, main
(qubesdb-config-read.py) -/

/-- Environment model of the virtio port for one Receiver run. -/
structure VirtioPort where
  /-- Whether `os.path.exists(VIRTIO_PORT)` holds after `t` seconds of
  the wait loop's 1-second sleeps (the initial check is `existsAt 0`). -/
  existsAt : Nat → Bool
  /-- `true` when opening or reading the port raises `IOError`/`OSError`
  (the `except` clause of lines 61-62). -/
  openFails : Bool
  /-- Result of the i-th `f.read(4096)`; `[]` models a read returning
  no data. -/
  reads : Nat → Str
  /-- Number of read-loop iterations the read deadline allows: each
  iteration consumes one `f.read` result, and `time.time() < deadline`
  bounds how many iterations run before the loop exits. -/
  readFuel : Nat

/-- The wait loop of `read_from_virtio` lines 30-33:
`while not os.path.exists(VIRTIO_PORT) and waited < timeout:
sleep(1); waited += 1`.  `fuel` is `timeout - waited`, so the loop is
structurally recursive; the returned value is the final `waited`, i.e.
the number of 1-second sleeps performed. -/
def waitLoop (existsAt : Nat → Bool) : Nat → Nat → Nat
  | 0, waited => waited
  | fuel + 1, waited =>
    if existsAt waited then waited else waitLoop existsAt fuel (waited + 1)

/-- The accumulate loop of `read_from_virtio` lines 43-51: read a
chunk; on data, append and stop as soon as the footer marker is a
substring of the buffer; on no data, back off; the deadline bounds the
number of iterations (`fuel`). -/
def readLoop (reads : Nat → Str) : Nat → Nat → Str → Str
  | 0, _, data => data
  | fuel + 1, i, data =>
    let chunk := reads i
    if chunk = [] then readLoop reads fuel (i + 1) data
    else
      let data' := data ++ chunk
      if containsSub QUBESDB_FOOTER data' then data'
      else readLoop reads fuel (i + 1) data'

/-- The open-read-parse body of `read_from_virtio` lines 39-64:
`entries = {}` before the `try`, so any `IOError`/`OSError` while
opening or reading yields `{}` (parsing happens after the loop and
cannot raise). -/
def readBody (p : VirtioPort) : Dict :=
  if p.openFails then []
  else parseFrame (readLoop p.reads p.readFuel 0 [])

/-- `read_from_virtio` (lines 26-64): wait for the port (lines 28-36),
returning `{}` when it never appears within `timeout`, then read and
parse. -/
def read_from_virtio (p : VirtioPort) (timeout : Nat := 30) : Dict :=
  if p.existsAt 0 then readBody p
  else if p.existsAt (waitLoop p.existsAt timeout 0) then readBody p
  else []

/-- On-disk cache state: the aggregate document `CACHE_FILE`
(`none` = file absent) and the `entries/` per-key directory as a map
from file name to file content. -/
structure CacheState where
  aggregate : Option Dict
  perKey : Dict
deriving DecidableEq

/-- The state before any delivery: no aggregate file, no per-key files. -/
def emptyCache : CacheState := { aggregate := none, perKey := [] }

/-- The `safe_key` transform of `save_cache` line 76:
`k.lstrip("/").replace("/", "_")`. -/
def safeKey (k : Str) : Str :=
  (k.dropWhile (fun c => c = '/')).map (fun c => if c = '/' then '_' else c)

/-- `save_cache` (lines 67-78): rewrite the aggregate document with
exactly `entries`, then write one per-key file per entry; files of the
`entries/` directory not named by any current key are left in place
(the code never removes them). -/
def save_cache (st : CacheState) (entries : Dict) : CacheState :=
  { aggregate := some entries,
    perKey := entries.foldl (fun pk kv => dictInsert pk (safeKey kv.1) kv.2)
      st.perKey }

/-- `load_cache` (lines 81-85): the aggregate document, or `{}` when
the file does not exist. -/
def load_cache (st : CacheState) : Dict := st.aggregate.getD []

/-- The terminal report of the no-argument Receiver run
(lines 113-123). -/
inductive MainReport
  /-- `"QubesDB: {n} entries loaded"`: fresh entries persisted. -/
  | loaded (n : Nat)
  /-- `"No new data; using {n} cached entries"`. -/
  | usedCache (n : Nat)
  /-- `"WARNING: No QubesDB configuration available"`. -/
  | noConfig
deriving DecidableEq

/-- Outcome of one no-argument Receiver run: final cache state,
process exit status, and the report printed. -/
structure RunResult where
  cache : CacheState
  exitCode : Nat
  report : MainReport
deriving DecidableEq

/-- The no-argument path of the Receiver's `main` (lines 112-124):
read; if the result is non-empty (`if entries:`), save it; otherwise
fall back to the cache without touching it.  `main` returns normally
on every branch of this path — no `sys.exit` call — so the process
exit status is 0 throughout. -/
def mainNoArgs (p : VirtioPort) (st : CacheState) : RunResult :=
  if read_from_virtio p = [] then
    if load_cache st = [] then
      { cache := st, exitCode := 0, report := .noConfig }
    else
      { cache := st, exitCode := 0, report := .usedCache (load_cache st).length }
  else
    { cache := save_cache st (read_from_virtio p), exitCode := 0,
      report := .loaded (read_from_virtio p).length }

/-! ## Sender (qubesdb-config-inject.py)

The spec treats the optional `socat` relay as a substitutable
transport outside the core, so the direct Unix-socket path of `inject`
(lines 49-63) is the one modelled. -/

/-- The exceptions the socket path of `inject` can raise while
connecting or sending.  `socket.timeout` and the three others are all
`OSError` subclasses; distinct exceptions have distinct `str(e)`
texts. -/
inductive PyExc
  | sockTimeout
  | connRefused
  | fileNotFound
  | osError (msg : Str)
deriving DecidableEq

/-- What `sock.connect` + `sock.sendall` do on one attempt: `.ok ()`
when both succeed, `.error e` when one raises `e`. -/
abbrev SockAttempt := Except PyExc Unit

/-- The message `inject` prints for the attempt; distinct constructors
are distinct printed texts (`"Injected {n} entries via {path}"`,
`"TIMEOUT: Guest may not be reading {path} yet"`, `"ERROR: {e}"` with
`str(e)` embedded). -/
inductive InjectMsg
  | injected (count : Nat)
  | timeoutMsg
  | errorMsg (e : PyExc)
deriving DecidableEq

/-- The socket path of `inject` (lines 49-63): success returns `True`;
`socket.timeout` is caught first (line 56); every other exception the
attempt can raise is an `OSError` and is caught by line 59; so no
exception escapes and the result is always `.ok (flag, message)` —
`.error` would model an uncaught exception aborting the Sender. -/
def inject (entries : Dict) (attempt : SockAttempt) :
    Except PyExc (Bool × InjectMsg) :=
  match attempt with
  | .ok () => .ok (true, .injected entries.length)
  | .error .sockTimeout => .ok (false, .timeoutMsg)
  | .error e => .ok (false, .errorMsg e)

/-- One argv step of the Sender's `main` (lines 74-77):
`if "=" in arg: k, v = arg.split("=", 1); entries[k] = v` —
the argument is not stripped. -/
def argStep (entries : Dict) (arg : Str) : Dict :=
  match splitFirstEq arg with
  | some (k, v) => dictInsert entries k v
  | none => entries

/-- One stdin-line step of the Sender's `main` (lines 80-84): strip
the line, then split on the first `'='` when present. -/
def stdinStep (entries : Dict) (line : Str) : Dict :=
  match splitFirstEq (strip line) with
  | some (k, v) => dictInsert entries k v
  | none => entries

/-- `os.environ.get(name, default)`. -/
def envGet (env : Str → Option Str) (name dflt : String) : Str :=
  (env name.data).getD dflt.data

/-- The built-in default entry set of the Sender's `main`
(lines 87-102), parameterised by the host environment. -/
def defaultEntries (env : Str → Option Str) : Dict :=
  [ ("/name".data, envGet env "VM_NAME" "qubes-kvm-node1"),
    ("/type".data, "AppVM".data),
    ("/label".data, "green".data),
    ("/netvm".data, "sys-firewall".data),
    ("/memory".data, envGet env "VM_MEM" "4096"),
    ("/vcpus".data, envGet env "VM_CPUS" "2"),
    ("/qubes-vm-updateable".data, "False".data),
    ("/qubes-base-template".data, "fedora-41".data),
    ("/qubes-vm-persistence".data, "full".data),
    ("/qubes-ip".data, "10.137.0.100".data),
    ("/qubes-netmask".data, "255.255.255.255".data),
    ("/qubes-gateway".data, "10.137.0.1".data),
    ("/qubes-primary-dns".data, "10.139.1.1".data),
    ("/qubes-secondary-dns".data, "10.139.1.2".data) ]

/-- The dict built by the two sourcing loops of the Sender's `main`
(lines 72-84): argv `key=value` arguments are inserted first, then —
when stdin is not a tty (`stdinLines = some lines`) — the stdin lines
are inserted into the same dict. -/
def mergedEntries (args : List Str) (stdinLines : Option (List Str)) : Dict :=
  match stdinLines with
  | none => args.foldl argStep []
  | some lines => lines.foldl stdinStep (args.foldl argStep [])

/-- Entry sourcing of the Sender's `main` (lines 72-103): the merged
argv/stdin dict, with the default set substituted only when that merge
is empty (`if not entries:`). -/
def buildEntries (args : List Str) (stdinLines : Option (List Str))
    (env : Str → Option Str) : Dict :=
  if mergedEntries args stdinLines = [] then defaultEntries env
  else mergedEntries args stdinLines

/-! ## Derived notions used by the statements -/

/-- The first character, when present, is not whitespace. -/
def headNotWs (s : Str) : Bool :=
  match s with
  | [] => true
  | c :: _ => !(isSpace c)

/-- The last character, when present, is not whitespace. -/
def lastNotWs (s : Str) : Bool :=
  match s.getLast? with
  | none => true
  | some c => !(isSpace c)

/-- The per-entry side conditions under which a rendered `key=value`
line survives the Receiver's strip-and-split unchanged. -/
def goodEntry (kv : Str × Str) : Prop :=
  kv.1 ≠ [] ∧ kv.2 ≠ [] ∧ '=' ∉ kv.1
    ∧ (∀ c ∈ kv.1, isLineBoundary c = false)
    ∧ (∀ c ∈ kv.2, isLineBoundary c = false)
    ∧ headNotWs kv.1 = true ∧ lastNotWs kv.2 = true

instance (kv : Str × Str) : Decidable (goodEntry kv) := by
  unfold goodEntry
  infer_instance

/-- The value assigned to `k` by the last argv element that parses as
`key=value` with key `k` (arguments are not stripped), if any. -/
def lastArgVal : List Str → Str → Option Str
  | [], _ => none
  | arg :: rest, k =>
    match lastArgVal rest k with
    | some v => some v
    | none =>
      match splitFirstEq arg with
      | some (k', v) => if k' = k then some v else none
      | none => none

/-- The value assigned to `k` by the last stdin line that (after
stripping) parses as `key=value` with key `k`, if any. -/
def lastLineVal : List Str → Str → Option Str
  | [], _ => none
  | line :: rest, k =>
    match lastLineVal rest k with
    | some v => some v
    | none =>
      match splitFirstEq (strip line) with
      | some (k', v) => if k' = k then some v else none
      | none => none

/-! ## Concrete environments for counterexamples and witnesses -/

/-- A virtio port that never appears. -/
def neverPort : VirtioPort :=
  { existsAt := fun _ => false, openFails := false,
    reads := fun _ => [], readFuel := 0 }

/-- A port that delivers the header and one `a=b` line but never the
footer: the read deadline elapses on a partial frame. -/
def partialPort : VirtioPort :=
  { existsAt := fun _ => true, openFails := false,
    reads := fun i => if i = 0 then "QUBESDB-KVM-CONFIG\na=b\n".data else [],
    readFuel := 3 }

/-- A cooperating port delivering one complete two-entry frame. -/
def goodPort : VirtioPort :=
  { existsAt := fun _ => true, openFails := false,
    reads := fun i =>
      if i = 0 then "QUBESDB-KVM-CONFIG\n/name=work\n/memory=4096\n\nQUBESDB-END\n".data
      else [],
    readFuel := 3 }

/-- A cache already holding one entry from a previous delivery. -/
def oldCache : CacheState :=
  { aggregate := some [("/old".data, "1".data)],
    perKey := [("old".data, "1".data)] }

/-! ## Lemmas: dict operations -/

theorem dlookup_dictInsert (d : Dict) (k v k' : Str) :
    dlookup (dictInsert d k v) k' = if k = k' then some v else dlookup d k' := by
  induction d with
  | nil => simp [dictInsert, dlookup]
  | cons p rest ih =>
    obtain ⟨k0, v0⟩ := p
    simp only [dictInsert]
    by_cases h0 : k0 = k
    · subst h0
      by_cases h1 : k0 = k'
      · subst h1; simp [dlookup]
      · simp [dlookup, h1]
    · simp only [if_neg h0, dlookup, ih]
      by_cases h1 : k0 = k'
      · subst h1
        have : ¬ k = k0 := fun e => h0 e.symm
        simp [this]
      · simp [h1]

theorem dictInsert_fresh (d : Dict) (k v : Str) (h : k ∉ d.map Prod.fst) :
    dictInsert d k v = d ++ [(k, v)] := by
  induction d with
  | nil => simp [dictInsert]
  | cons p rest ih =>
    obtain ⟨k0, v0⟩ := p
    simp only [List.map_cons, List.mem_cons] at h
    push_neg at h
    have : ¬ k0 = k := fun e => h.1 e.symm
    simp [dictInsert, this, ih h.2]

theorem mem_dictInsert (d : Dict) (k v : Str) (p : Str × Str)
    (h : p ∈ dictInsert d k v) : p = (k, v) ∨ p ∈ d := by
  induction d with
  | nil => simpa [dictInsert] using h
  | cons q rest ih =>
    obtain ⟨k0, v0⟩ := q
    simp only [dictInsert] at h
    by_cases h0 : k0 = k
    · rw [if_pos h0] at h
      rcases List.mem_cons.mp h with h1 | h1
      · exact Or.inl h1
      · exact Or.inr (List.mem_cons.mpr (Or.inr h1))
    · rw [if_neg h0] at h
      rcases List.mem_cons.mp h with h1 | h1
      · exact Or.inr (List.mem_cons.mpr (Or.inl h1))
      · rcases ih h1 with h2 | h2
        · exact Or.inl h2
        · exact Or.inr (List.mem_cons.mpr (Or.inr h2))

/-! ## Lemmas: strip -/

theorem dropWhile_eq_self_of_head (p : Char → Bool) (l : Str)
    (h : ∀ c, l.head? = some c → p c = false) : l.dropWhile p = l := by
  cases l with
  | nil => rfl
  | cons c rest => simp [List.dropWhile, h c rfl]

theorem dropTrailing_cons (c : Char) (l : Str) :
    dropTrailing (c :: l)
      = match dropTrailing l with
        | [] => if isSpace c then [] else [c]
        | l' => c :: l' := rfl

theorem dropTrailing_eq_self (l : Str)
    (h : ∀ c, l.getLast? = some c → isSpace c = false) : dropTrailing l = l := by
  induction l with
  | nil => rfl
  | cons c rest ih =>
    cases rest with
    | nil => simp [dropTrailing, h c (by simp)]
    | cons c2 r2 =>
      have h3 : dropTrailing (c2 :: r2) = c2 :: r2 := by
        apply ih
        intro x hx
        exact h x (by rw [List.getLast?_cons_cons]; exact hx)
      rw [dropTrailing_cons, h3]

theorem strip_eq_self (l : Str) (h1 : headNotWs l = true) (h2 : lastNotWs l = true) :
    strip l = l := by
  have hd : l.dropWhile isSpace = l := by
    apply dropWhile_eq_self_of_head
    intro c hc
    cases l with
    | nil => simp at hc
    | cons c0 rest =>
      simp only [List.head?_cons, Option.some.injEq] at hc
      subst hc
      simpa [headNotWs] using h1
  rw [strip, hd]
  apply dropTrailing_eq_self
  intro c hc
  rw [lastNotWs, hc] at h2
  simpa using h2

theorem head_dropWhile_not (p : Char → Bool) (l : Str) :
    ∀ c, (l.dropWhile p).head? = some c → p c = false := by
  induction l with
  | nil => intro c hc; simp at hc
  | cons c0 rest ih =>
    intro c hc
    by_cases h0 : p c0
    · rw [List.dropWhile_cons_of_pos h0] at hc
      exact ih c hc
    · rw [List.dropWhile_cons_of_neg h0] at hc
      simp only [List.head?_cons, Option.some.injEq] at hc
      subst hc
      simpa using h0

theorem head_dropTrailing (l : Str) (c : Char) (h : (dropTrailing l).head? = some c) :
    l.head? = some c := by
  induction l with
  | nil => simp [dropTrailing] at h
  | cons c0 rest ih =>
    rw [dropTrailing_cons] at h
    rcases hr : dropTrailing rest with _ | ⟨x, xs⟩ <;> rw [hr] at h
    · by_cases hs : isSpace c0
      · simp [hs] at h
      · simp [hs] at h
        simp [h]
    · simp only [List.head?_cons, Option.some.injEq] at h
      simp [h]

theorem getLast_dropTrailing (l : Str) (c : Char)
    (h : (dropTrailing l).getLast? = some c) : isSpace c = false := by
  induction l with
  | nil => simp [dropTrailing] at h
  | cons c0 rest ih =>
    rw [dropTrailing_cons] at h
    rcases hr : dropTrailing rest with _ | ⟨x, xs⟩ <;> rw [hr] at h
    · by_cases hs : isSpace c0
      · simp [hs] at h
      · simp [hs] at h
        rw [← h]
        simpa using hs
    · rw [List.getLast?_cons_cons] at h
      rw [← hr] at h
      exact ih h

theorem strip_head (l : Str) (c : Char) (h : (strip l).head? = some c) :
    isSpace c = false :=
  head_dropWhile_not isSpace l c (head_dropTrailing _ c h)

theorem strip_getLast (l : Str) (c : Char) (h : (strip l).getLast? = some c) :
    isSpace c = false :=
  getLast_dropTrailing _ c h

/-! ## Lemmas: first-`=` split and line splitting -/

theorem splitFirstEq_cons (c : Char) (l : Str) :
    splitFirstEq (c :: l)
      = if c = '=' then some ([], l)
        else match splitFirstEq l with
          | none => none
          | some (k, v) => some (c :: k, v) := rfl

theorem splitFirstEq_append (k v : Str) (hk : '=' ∉ k) :
    splitFirstEq (k ++ '=' :: v) = some (k, v) := by
  induction k with
  | nil => simp [splitFirstEq]
  | cons c rest ih =>
    simp only [List.mem_cons] at hk
    push_neg at hk
    rw [List.cons_append, splitFirstEq_cons, if_neg (Ne.symm hk.1), ih hk.2]

theorem splitFirstEq_eq_none (l : Str) (h : '=' ∉ l) : splitFirstEq l = none := by
  induction l with
  | nil => rfl
  | cons c rest ih =>
    simp only [List.mem_cons] at h
    push_neg at h
    rw [splitFirstEq_cons, if_neg (Ne.symm h.1), ih h.2]

theorem splitFirstEq_some (l k v : Str) (h : splitFirstEq l = some (k, v)) :
    l = k ++ '=' :: v ∧ '=' ∉ k := by
  induction l generalizing k v with
  | nil => simp [splitFirstEq] at h
  | cons c rest ih =>
    rw [splitFirstEq_cons] at h
    by_cases hc : c = '='
    · rw [if_pos hc] at h
      simp only [Option.some.injEq, Prod.mk.injEq] at h
      obtain ⟨hk, hv⟩ := h
      subst hk; subst hv; subst hc
      simp
    · rw [if_neg hc] at h
      rcases hr : splitFirstEq rest with _ | ⟨k1, v1⟩ <;> rw [hr] at h
      · simp at h
      · simp only [Option.some.injEq, Prod.mk.injEq] at h
        obtain ⟨hk, hv⟩ := h
        obtain ⟨he, hne⟩ := ih k1 v1 hr
        subst hk; subst hv; subst he
        refine ⟨by simp, ?_⟩
        simp only [List.mem_cons]
        push_neg
        exact ⟨fun e => hc e.symm, hne⟩

theorem splitlines_cons (c : Char) (l : Str) :
    splitlines (c :: l)
      = if c = '\n' then [] :: splitlines l
        else match splitlines l with
          | [] => [[c]]
          | l' :: ls => (c :: l') :: ls := rfl

theorem splitlines_line (l rest : Str) (hl : ∀ c ∈ l, c ≠ '\n') :
    splitlines (l ++ '\n' :: rest) = l :: splitlines rest := by
  induction l with
  | nil => simp [splitlines_cons]
  | cons c t ih =>
    have hc : c ≠ '\n' := hl c (by simp)
    have ht : ∀ x ∈ t, x ≠ '\n' := fun x hx => hl x (by simp [hx])
    rw [List.cons_append, splitlines_cons, if_neg hc, ih ht]

/-! ## Lemmas: the rendered frame -/

theorem renderPayload_eq (d : Dict) :
    renderPayload d
      = QUBESDB_HEADER ++ (d.map entryLine).flatten ++ QUBESDB_FOOTER := by
  have key : ∀ (l : Dict) (init : Str),
      l.foldl (fun payload kv => payload ++ entryLine kv) init
        = init ++ (l.map entryLine).flatten := by
    intro l
    induction l with
    | nil => intro init; simp
    | cons kv rest ih => intro init; simp [ih, List.append_assoc]
  rw [renderPayload, key]

theorem splitlines_render (d : Dict)
    (h : ∀ kv ∈ d, (∀ c ∈ kv.1, c ≠ '\n') ∧ (∀ c ∈ kv.2, c ≠ '\n')) :
    splitlines (renderPayload d)
      = "QUBESDB-KVM-CONFIG".data
          :: (d.map fun kv => kv.1 ++ '=' :: kv.2) ++ [[], "QUBESDB-END".data] := by
  have tail : ∀ (l : Dict), (∀ kv ∈ l, (∀ c ∈ kv.1, c ≠ '\n') ∧ (∀ c ∈ kv.2, c ≠ '\n')) →
      splitlines ((l.map entryLine).flatten ++ QUBESDB_FOOTER)
        = (l.map fun kv => kv.1 ++ '=' :: kv.2) ++ [[], "QUBESDB-END".data] := by
    intro l
    induction l with
    | nil =>
      intro _
      simp only [List.map_nil, List.flatten, List.nil_append]
      decide
    | cons kv rest ih =>
      intro hl
      obtain ⟨hk, hv⟩ := hl kv (by simp)
      have hline : ∀ c ∈ kv.1 ++ '=' :: kv.2, c ≠ '\n' := by
        intro c hc
        rcases List.mem_append.mp hc with hc | hc
        · exact hk c hc
        · rcases List.mem_cons.mp hc with hc | hc
          · subst hc; decide
          · exact hv c hc
      have hstep : entryLine kv ++ ((rest.map entryLine).flatten ++ QUBESDB_FOOTER)
          = (kv.1 ++ '=' :: kv.2) ++ '\n' :: ((rest.map entryLine).flatten ++ QUBESDB_FOOTER) := by
        simp [entryLine]
      rw [List.map_cons, List.flatten_cons, List.append_assoc, hstep,
        splitlines_line _ _ hline, ih (fun p hp => hl p (by simp [hp]))]
      simp
  have hhdr : QUBESDB_HEADER ++ (d.map entryLine).flatten ++ QUBESDB_FOOTER
      = "QUBESDB-KVM-CONFIG".data ++ '\n' :: ((d.map entryLine).flatten ++ QUBESDB_FOOTER) := by
    simp [QUBESDB_HEADER]
  rw [renderPayload_eq, hhdr,
    splitlines_line _ _ (by decide), tail d h]
  simp

/-! ## Lemmas: the line parser -/

theorem parseLine_marker (e : Dict) (line : Str)
    (h : strip line = "QUBESDB-KVM-CONFIG".data ∨ strip line = "QUBESDB-END".data
      ∨ strip line = []) :
    parseLine e line = e := by
  rw [parseLine, if_pos h]

theorem parseLine_no_eq (e : Dict) (line : Str) (h : '=' ∉ strip line) :
    parseLine e line = e := by
  rw [parseLine]
  split_ifs with h1
  · rfl
  · rw [splitFirstEq_eq_none _ h]

theorem entry_line_not_marker (k v : Str) :
    ¬(k ++ '=' :: v = "QUBESDB-KVM-CONFIG".data
      ∨ k ++ '=' :: v = "QUBESDB-END".data ∨ k ++ '=' :: v = []) := by
  have hmem : '=' ∈ k ++ '=' :: v := by simp
  rintro (h | h | h) <;> rw [h] at hmem
  · revert hmem; decide
  · revert hmem; decide
  · simp at hmem

theorem parseLine_entry (e : Dict) (k v : Str) (hk : '=' ∉ k)
    (hs : strip (k ++ '=' :: v) = k ++ '=' :: v) :
    parseLine e (k ++ '=' :: v) = dictInsert e k v := by
  rw [parseLine, hs, if_neg (entry_line_not_marker k v), splitFirstEq_append k v hk]

theorem headNotWs_entry (k v : Str) (hk : k ≠ []) (h : headNotWs k = true) :
    headNotWs (k ++ '=' :: v) = true := by
  cases k with
  | nil => contradiction
  | cons c t => simpa [headNotWs] using h

theorem lastNotWs_entry (k v : Str) (hv : v ≠ []) (h : lastNotWs v = true) :
    lastNotWs (k ++ '=' :: v) = true := by
  have h2 : (k ++ '=' :: v).getLast? = ('=' :: v).getLast? :=
    List.getLast?_append_cons k '=' v
  have h1 : ('=' :: v).getLast? = v.getLast? := by
    cases v with
    | nil => contradiction
    | cons c t => rw [List.getLast?_cons_cons]
  rw [lastNotWs, h2, h1, ← lastNotWs]
  exact h

theorem goodEntry_strip (k v : Str) (h : goodEntry (k, v)) :
    strip (k ++ '=' :: v) = k ++ '=' :: v := by
  obtain ⟨hk1, hv1, _, _, _, hk4, hv4⟩ := h
  exact strip_eq_self _ (headNotWs_entry k v hk1 hk4) (lastNotWs_entry k v hv1 hv4)

theorem goodEntry_no_newline (k v : Str) (h : goodEntry (k, v)) :
    (∀ c ∈ k, c ≠ '\n') ∧ (∀ c ∈ v, c ≠ '\n') := by
  obtain ⟨_, _, _, hk3, hv3, _, _⟩ := h
  constructor
  · intro c hc he
    have := hk3 c hc
    rw [he] at this
    revert this; decide
  · intro c hc he
    have := hv3 c hc
    rw [he] at this
    revert this; decide

theorem foldl_parseLine_entries (d : Dict) (acc : Dict)
    (h : ∀ kv ∈ d, goodEntry kv)
    (hnd : (d.map Prod.fst).Nodup)
    (hfresh : ∀ kv ∈ d, kv.1 ∉ acc.map Prod.fst) :
    List.foldl parseLine acc (d.map fun kv => kv.1 ++ '=' :: kv.2) = acc ++ d := by
  induction d generalizing acc with
  | nil => simp
  | cons kv rest ih =>
    obtain ⟨k, v⟩ := kv
    have hg := h (k, v) (by simp)
    rw [List.map_cons, List.foldl_cons,
      parseLine_entry acc k v hg.2.2.1 (goodEntry_strip k v hg),
      dictInsert_fresh acc k v (hfresh (k, v) (by simp))]
    rw [List.map_cons, List.nodup_cons] at hnd
    rw [ih (acc ++ [(k, v)]) (fun p hp => h p (by simp [hp])) hnd.2]
    · simp
    · intro p hp
      simp only [List.map_append, List.mem_append]
      push_neg
      refine ⟨hfresh p (by simp [hp]), ?_⟩
      simp only [List.map_cons, List.map_nil, List.mem_singleton]
      intro he
      exact hnd.1 (List.mem_map.mpr ⟨p, hp, he⟩)

theorem parseFrame_render (d : Dict)
    (h : ∀ kv ∈ d, goodEntry kv) (hnd : (d.map Prod.fst).Nodup) :
    parseFrame (renderPayload d) = d := by
  have hnl : ∀ kv ∈ d, (∀ c ∈ kv.1, c ≠ '\n') ∧ (∀ c ∈ kv.2, c ≠ '\n') := by
    intro kv hkv
    exact goodEntry_no_newline kv.1 kv.2 (by simpa using h kv hkv)
  rw [parseFrame, splitlines_render d hnl, parseLines, List.cons_append,
    List.foldl_cons]
  have h0 : parseLine [] "QUBESDB-KVM-CONFIG".data = [] := by decide
  rw [h0, List.foldl_append, foldl_parseLine_entries d [] h hnd (by simp)]
  rw [List.nil_append, List.foldl_cons,
    parseLine_marker d [] (by simp [strip, dropTrailing]),
    List.foldl_cons, parseLine_marker d "QUBESDB-END".data (by decide),
    List.foldl_nil]

/-! ## Lemmas: shape of parsed pairs, garbage lines, wait loop -/

theorem parseLine_pairs (e : Dict) (line : Str) (p : Str × Str)
    (hp : p ∈ parseLine e line)
    (he : ∀ q ∈ e, headNotWs q.1 = true ∧ lastNotWs q.2 = true) :
    headNotWs p.1 = true ∧ lastNotWs p.2 = true := by
  rw [parseLine] at hp
  split_ifs at hp with h1
  · exact he p hp
  · rcases hs : splitFirstEq (strip line) with _ | ⟨k, v⟩ <;> rw [hs] at hp
    · exact he p hp
    · rcases mem_dictInsert e k v p hp with h2 | h2
      · subst h2
        obtain ⟨hline, _⟩ := splitFirstEq_some (strip line) k v hs
        constructor
        · cases hk : k with
          | nil => simp [headNotWs]
          | cons c t =>
            have hc : (strip line).head? = some c := by rw [hline, hk]; simp
            simp [headNotWs, strip_head _ c hc]
        · cases hv : v.getLast? with
          | none => simp [lastNotWs, hv]
          | some c =>
            have h3 : (strip line).getLast? = some c := by
              rw [hline, List.getLast?_append_cons]
              cases v with
              | nil => simp at hv
              | cons c2 t2 => rw [List.getLast?_cons_cons]; exact hv
            simp [lastNotWs, hv, strip_getLast _ c h3]
      · exact he p h2

theorem foldl_parseLine_pairs (lines : List Str) (acc : Dict)
    (hacc : ∀ q ∈ acc, headNotWs q.1 = true ∧ lastNotWs q.2 = true) :
    ∀ p ∈ List.foldl parseLine acc lines,
      headNotWs p.1 = true ∧ lastNotWs p.2 = true := by
  induction lines generalizing acc with
  | nil => simpa using hacc
  | cons line rest ih =>
    intro p hp
    rw [List.foldl_cons] at hp
    exact ih (parseLine acc line)
      (fun q hq => parseLine_pairs acc line q hq hacc) p hp

theorem parseLines_skip_garbage (pre post : List Str) (g : Str)
    (h : '=' ∉ strip g) :
    parseLines (pre ++ g :: post) = parseLines (pre ++ post) := by
  rw [parseLines, parseLines, List.foldl_append, List.foldl_append,
    List.foldl_cons, parseLine_no_eq _ g h]

theorem waitLoop_never (existsAt : Nat → Bool) (h : ∀ t, existsAt t = false) :
    ∀ fuel waited, waitLoop existsAt fuel waited = waited + fuel := by
  intro fuel
  induction fuel with
  | zero => intro w; simp [waitLoop]
  | succ n ih =>
    intro w
    rw [waitLoop, h w]
    simp only [Bool.false_eq_true, if_false]
    rw [ih (w + 1)]
    omega

/-! ## Lemmas: last-write-wins lookups of the Sender's merge -/

theorem lastArgVal_cons (arg : Str) (rest : List Str) (k : Str) :
    lastArgVal (arg :: rest) k
      = match lastArgVal rest k with
        | some v => some v
        | none =>
          match splitFirstEq arg with
          | some (k', v) => if k' = k then some v else none
          | none => none := rfl

theorem dlookup_foldl_argStep (args : List Str) (d : Dict) (k : Str) :
    dlookup (args.foldl argStep d) k
      = match lastArgVal args k with
        | some v => some v
        | none => dlookup d k := by
  induction args generalizing d with
  | nil => simp [lastArgVal]
  | cons arg rest ih =>
    rw [List.foldl_cons, ih (argStep d arg), lastArgVal_cons]
    cases hl : lastArgVal rest k with
    | some v => rfl
    | none =>
      rcases hs : splitFirstEq arg with _ | ⟨k', v⟩
      · simp [argStep, hs]
      · rw [argStep, hs]
        by_cases hk : k' = k
        · subst hk; simp [dlookup_dictInsert]
        · simp [dlookup_dictInsert, hk]

theorem lastLineVal_cons (line : Str) (rest : List Str) (k : Str) :
    lastLineVal (line :: rest) k
      = match lastLineVal rest k with
        | some v => some v
        | none =>
          match splitFirstEq (strip line) with
          | some (k', v) => if k' = k then some v else none
          | none => none := rfl

theorem dlookup_foldl_stdinStep (lines : List Str) (d : Dict) (k : Str) :
    dlookup (lines.foldl stdinStep d) k
      = match lastLineVal lines k with
        | some v => some v
        | none => dlookup d k := by
  induction lines generalizing d with
  | nil => simp [lastLineVal]
  | cons line rest ih =>
    rw [List.foldl_cons, ih (stdinStep d line), lastLineVal_cons]
    cases hl : lastLineVal rest k with
    | some v => rfl
    | none =>
      rcases hs : splitFirstEq (strip line) with _ | ⟨k', v⟩
      · simp [stdinStep, hs]
      · rw [stdinStep, hs]
        by_cases hk : k' = k
        · subst hk; simp [dlookup_dictInsert]
        · simp [dlookup_dictInsert, hk]

/-! ## Lemmas: the per-key fold of `save_cache` -/

theorem dlookup_saveFold_untouched (entries : Dict) (pk : Dict) (n : Str)
    (h : ∀ kv ∈ entries, safeKey kv.1 ≠ n) :
    dlookup (entries.foldl (fun pk kv => dictInsert pk (safeKey kv.1) kv.2) pk) n
      = dlookup pk n := by
  induction entries generalizing pk with
  | nil => rfl
  | cons kv rest ih =>
    rw [List.foldl_cons, ih _ (fun q hq => h q (by simp [hq])),
      dlookup_dictInsert, if_neg (h kv (by simp))]

theorem dlookup_saveFold_mem (entries : Dict) (pk : Dict) (k v : Str)
    (hmem : (k, v) ∈ entries)
    (hnd : (entries.map Prod.fst).Nodup)
    (hinj : ∀ p ∈ entries, ∀ q ∈ entries, safeKey p.1 = safeKey q.1 → p.1 = q.1) :
    dlookup (entries.foldl (fun pk kv => dictInsert pk (safeKey kv.1) kv.2) pk)
      (safeKey k) = some v := by
  induction entries generalizing pk with
  | nil => simp at hmem
  | cons kv rest ih =>
    obtain ⟨k0, v0⟩ := kv
    rw [List.map_cons, List.nodup_cons] at hnd
    rw [List.foldl_cons]
    rcases List.mem_cons.mp hmem with h1 | h1
    · obtain ⟨hk0, hv0⟩ := Prod.mk.injEq k v k0 v0 ▸ h1
      subst hk0
      subst hv0
      have huntouched : ∀ q ∈ rest, safeKey q.1 ≠ safeKey k := by
        intro q hq he
        have hq1 : q.1 = k :=
          hinj q (by simp [hq]) (k, v) (by simp) he
        exact hnd.1 (List.mem_map.mpr ⟨q, hq, hq1⟩)
      rw [dlookup_saveFold_untouched rest _ _ huntouched,
        dlookup_dictInsert, if_pos rfl]
    · exact ih _ h1 hnd.2
        (fun p hp q hq =>
          hinj p (List.mem_cons_of_mem _ hp) q (List.mem_cons_of_mem _ hq))

/-! ## Claim theorems -/

/-- C1 counterexample: when no configuration can be obtained from any
source — the port never appears and the cache is empty — the Receiver's
no-argument run prints the `noConfig` warning yet its exit status is 0,
not the non-zero status the claim requires (`main` returns normally on
that branch; no `sys.exit` is reached). -/
theorem C1_counterexample :
    (mainNoArgs neverPort emptyCache).report = MainReport.noConfig
      ∧ (mainNoArgs neverPort emptyCache).exitCode = 0 := by
  refine ⟨by decide, by decide⟩

/-- C1 (amended): the Receiver's no-argument run always terminates
normally with exit status 0 — also on a successful read-or-fallback —
and when neither the read phase nor the cache yields any entry it
merely reports the "no configuration available" warning. -/
theorem C1_amended (p : VirtioPort) (st : CacheState) :
    (mainNoArgs p st).exitCode = 0
      ∧ (read_from_virtio p = [] → load_cache st = [] →
          (mainNoArgs p st).report = MainReport.noConfig) := by
  constructor
  · rw [mainNoArgs]
    split_ifs <;> rfl
  · intro h1 h2
    rw [mainNoArgs, if_pos h1, if_pos h2]

/-- Witness for C1 (amended) at the never-appearing port and the empty
cache. -/
theorem C1_amended_witness :
    (mainNoArgs neverPort emptyCache).exitCode = 0
      ∧ (mainNoArgs neverPort emptyCache).report = MainReport.noConfig :=
  ⟨(C1_amended neverPort emptyCache).1,
   (C1_amended neverPort emptyCache).2 (by decide) (by decide)⟩

/-- C2 counterexample: `partialPort` delivers the header and the line
`a=b` but the footer marker is never observed before the read deadline,
yet the Receiver parses the partial buffer, obtains `{"a": "b"}`, and
persists it — overwriting the previously cached aggregate instead of
falling back to it. -/
theorem C2_counterexample :
    containsSub QUBESDB_FOOTER
        (readLoop partialPort.reads partialPort.readFuel 0 []) = false
      ∧ read_from_virtio partialPort = [("a".data, "b".data)]
      ∧ (mainNoArgs partialPort oldCache).cache
          = save_cache oldCache [("a".data, "b".data)]
      ∧ load_cache (mainNoArgs partialPort oldCache).cache
          ≠ load_cache oldCache := by
  refine ⟨by decide, by decide, by decide, by decide⟩

/-- C2 (amended): when the port is present and readable but the read
deadline elapses without the footer marker ever appearing in the
accumulated buffer, the Receiver still parses that partial buffer; the
parsed entries are persisted whenever there is at least one, and the
attempt falls back to the cache only when the parse yields no
entries. -/
theorem C2_amended (p : VirtioPort) (st : CacheState)
    (hex : p.existsAt 0 = true) (hop : p.openFails = false)
    (_hnof : containsSub QUBESDB_FOOTER
      (readLoop p.reads p.readFuel 0 []) = false) :
    read_from_virtio p = parseFrame (readLoop p.reads p.readFuel 0 [])
      ∧ (parseFrame (readLoop p.reads p.readFuel 0 []) ≠ [] →
          (mainNoArgs p st).cache
            = save_cache st (parseFrame (readLoop p.reads p.readFuel 0 [])))
      ∧ (parseFrame (readLoop p.reads p.readFuel 0 []) = [] →
          (mainNoArgs p st).cache = st) := by
  have h1 : read_from_virtio p = parseFrame (readLoop p.reads p.readFuel 0 []) := by
    rw [read_from_virtio, if_pos hex, readBody, hop]
    simp
  refine ⟨h1, ?_, ?_⟩
  · intro hne
    rw [mainNoArgs, h1, if_neg hne]
  · intro he
    rw [mainNoArgs, h1, if_pos he]
    split_ifs <;> rfl

/-- Witness for C2 (amended) at `partialPort`: the read returns the
partial-buffer parse, and the run persists it over the old cache. -/
theorem C2_amended_witness :
    read_from_virtio partialPort
        = parseFrame (readLoop partialPort.reads partialPort.readFuel 0 [])
      ∧ (mainNoArgs partialPort oldCache).cache
          = save_cache oldCache
              (parseFrame (readLoop partialPort.reads partialPort.readFuel 0 [])) :=
  ⟨(C2_amended partialPort oldCache (by decide) (by decide) (by decide)).1,
   (C2_amended partialPort oldCache (by decide) (by decide) (by decide)).2.1
     (by decide)⟩

/-- C5: if the Receiver's read phase yields an empty ConfigSet, the
no-argument run leaves the whole cache state — aggregate document and
per-key files — exactly as it was, so `Load` after the attempt returns
exactly what it returned before. -/
theorem C5_fallback_frame (p : VirtioPort) (st : CacheState)
    (h : read_from_virtio p = []) :
    (mainNoArgs p st).cache = st
      ∧ load_cache (mainNoArgs p st).cache = load_cache st := by
  have h1 : (mainNoArgs p st).cache = st := by
    rw [mainNoArgs, if_pos h]
    split_ifs <;> rfl
  exact ⟨h1, by rw [h1]⟩

/-- Witness for C5 at the never-appearing port over a non-empty prior
cache. -/
theorem C5_fallback_frame_witness :
    (mainNoArgs neverPort oldCache).cache = oldCache
      ∧ load_cache (mainNoArgs neverPort oldCache).cache
          = load_cache oldCache :=
  C5_fallback_frame neverPort oldCache (by decide)

/-- C8: against a port that never appears, the wait phase performs
exactly `timeout` one-second polls (so it returns at the deadline —
default 30s — plus no more than the final existence check, never
indefinitely), the read returns the empty ConfigSet without raising,
and the no-argument run falls through to the cache-fallback path with
exit status 0 and the cache untouched. -/
theorem C8_wait_deadline (p : VirtioPort) (timeout : Nat) (st : CacheState)
    (h : ∀ t, p.existsAt t = false) :
    waitLoop p.existsAt timeout 0 = timeout
      ∧ read_from_virtio p timeout = []
      ∧ (mainNoArgs p st).exitCode = 0
      ∧ (mainNoArgs p st).cache = st := by
  have hw : ∀ tmo : Nat, waitLoop p.existsAt tmo 0 = tmo := by
    intro tmo
    rw [waitLoop_never p.existsAt h tmo 0]
    omega
  have hr : ∀ tmo : Nat, read_from_virtio p tmo = [] := by
    intro tmo
    rw [read_from_virtio, h 0]
    simp only [Bool.false_eq_true, if_false]
    rw [h (waitLoop p.existsAt tmo 0)]
    simp
  refine ⟨hw timeout, hr timeout, ?_, ?_⟩
  · rw [mainNoArgs, if_pos (hr 30)]
    split_ifs <;> rfl
  · rw [mainNoArgs, if_pos (hr 30)]
    split_ifs <;> rfl

/-- Witness for C8 at the never-appearing port with the default 30s
deadline. -/
theorem C8_wait_deadline_witness :
    waitLoop neverPort.existsAt 30 0 = 30
      ∧ read_from_virtio neverPort 30 = []
      ∧ (mainNoArgs neverPort oldCache).exitCode = 0 :=
  ⟨(C8_wait_deadline neverPort 30 oldCache (fun _ => rfl)).1,
   (C8_wait_deadline neverPort 30 oldCache (fun _ => rfl)).2.1,
   (C8_wait_deadline neverPort 30 oldCache (fun _ => rfl)).2.2.1⟩

/-- C3 counterexample: key `k` is supplied both as the command-line
argument `k=a` and as the stdin line `k=b`; the merged ConfigSet maps
`k` to the stream's value `b`, not the argument's value `a` — the stdin
loop runs after the argv loop, so stream entries override explicit
arguments, the reverse of the claim. -/
theorem C3_counterexample :
    buildEntries ["k=a".data] (some ["k=b".data]) (fun _ => none)
        = [("k".data, "b".data)]
      ∧ "b".data ≠ "a".data := by
  refine ⟨by decide, by decide⟩

/-- C3 (amended): in the Sender's entry sourcing, every key's final
value is the last stdin assignment to it when one exists, and only
otherwise the last command-line assignment — stream entries override
explicit arguments — while the built-in default set is used exactly
when the merged result of arguments and stream is empty. -/
theorem C3_sourcing (args lines : List Str) (env : Str → Option Str) (k : Str) :
    (mergedEntries args (some lines) ≠ [] →
      dlookup (buildEntries args (some lines) env) k
        = match lastLineVal lines k with
          | some v => some v
          | none =>
            match lastArgVal args k with
            | some v => some v
            | none => none)
      ∧ (mergedEntries args (some lines) = [] →
          buildEntries args (some lines) env = defaultEntries env) := by
  constructor
  · intro hne
    rw [buildEntries, if_neg hne, mergedEntries, dlookup_foldl_stdinStep,
      dlookup_foldl_argStep]
    cases lastLineVal lines k with
    | some v => rfl
    | none =>
      cases lastArgVal args k with
      | some v => rfl
      | none => rfl
  · intro he
    rw [buildEntries, if_pos he]

/-- Witness for C3 (amended): with `k=a` on the command line and `k=b`
on stdin the final value of `k` is `b`. -/
theorem C3_sourcing_witness :
    dlookup (buildEntries ["k=a".data] (some ["k=b".data]) (fun _ => none))
        "k".data = some "b".data := by
  have h :=
    (C3_sourcing ["k=a".data] ["k=b".data] (fun _ => none) "k".data).1 (by decide)
  rw [h]
  decide

/-- C4 counterexample: the ConfigSet `{"k": "v "}` has a non-empty key
and value and no `=` in the key, yet parsing the rendered frame yields
`{"k": "v"}` — the Receiver strips each line before splitting, so the
value's trailing space is lost and the original mapping is not
reproduced. -/
theorem C4_counterexample :
    "k".data ≠ [] ∧ "v ".data ≠ [] ∧ '=' ∉ "k".data
      ∧ parseFrame (renderPayload [("k".data, "v ".data)])
          = [("k".data, "v".data)]
      ∧ [("k".data, "v".data)] ≠ [("k".data, "v ".data)] := by
  refine ⟨by decide, by decide, by decide, by decide, by decide⟩

/-- C4 (amended): for every ConfigSet — keys pairwise distinct — whose
keys and values are non-empty, whose keys contain no `=`, and whose
entries pass the Receiver's strip step unchanged (the key's first and
the value's last character are not whitespace, and neither key nor
value contains a line-boundary character), parsing the rendered frame
with the Receiver's line parser reproduces exactly the original
mapping, entry for entry. -/
theorem C4_round_trip (d : Dict) (h : ∀ kv ∈ d, goodEntry kv)
    (hnd : (d.map Prod.fst).Nodup) :
    parseFrame (renderPayload d) = d :=
  parseFrame_render d h hnd

/-- Witness for C4 (amended) on the spec's two-entry scenario set. -/
theorem C4_round_trip_witness :
    parseFrame (renderPayload
        [("/name".data, "work".data), ("/memory".data, "4096".data)])
      = [("/name".data, "work".data), ("/memory".data, "4096".data)] :=
  C4_round_trip [("/name".data, "work".data), ("/memory".data, "4096".data)]
    (by decide) (by decide)

/-- C6 counterexample: after `Save {"/a": "1"}` followed by
`Save {"/b": "2"}` the per-key file `a` still exists with content `1`
although key `/a` is absent from the aggregate document — `save_cache`
never deletes stale per-key files, so the per-key directory is not
fully overwritten and the two forms represent different ConfigSets. -/
theorem C6_counterexample :
    dlookup (save_cache (save_cache emptyCache [("/a".data, "1".data)])
        [("/b".data, "2".data)]).perKey "a".data = some "1".data
      ∧ dlookup (load_cache (save_cache (save_cache emptyCache
          [("/a".data, "1".data)]) [("/b".data, "2".data)])) "/a".data
          = none := by
  refine ⟨by decide, by decide⟩

/-- C6 (amended): after `Save(entries)` — keys pairwise distinct, the
safe-key transform injective on them — the aggregate document holds
exactly `entries` (so saving the same set twice leaves `Load` returning
it), and every key of the aggregate has its per-key file holding
exactly that key's value; but the per-key directory is only upserted:
a file whose name matches no saved key keeps its previous content, so
stale files from earlier deliveries survive. -/
theorem C6_save_forms (st : CacheState) (entries : Dict)
    (hnd : (entries.map Prod.fst).Nodup)
    (hinj : ∀ p ∈ entries, ∀ q ∈ entries,
      safeKey p.1 = safeKey q.1 → p.1 = q.1) :
    load_cache (save_cache st entries) = entries
      ∧ load_cache (save_cache (save_cache st entries) entries) = entries
      ∧ (∀ k v, (k, v) ∈ entries →
          dlookup (save_cache st entries).perKey (safeKey k) = some v)
      ∧ (∀ n, (∀ kv ∈ entries, safeKey kv.1 ≠ n) →
          dlookup (save_cache st entries).perKey n = dlookup st.perKey n) := by
  refine ⟨rfl, rfl, ?_, ?_⟩
  · intro k v hkv
    exact dlookup_saveFold_mem entries st.perKey k v hkv hnd hinj
  · intro n hn
    exact dlookup_saveFold_untouched entries st.perKey n hn

/-- Witness for C6 (amended): saving one entry over the old cache. -/
theorem C6_save_forms_witness :
    load_cache (save_cache oldCache [("/name".data, "work".data)])
        = [("/name".data, "work".data)]
      ∧ dlookup (save_cache oldCache
            [("/name".data, "work".data)]).perKey (safeKey "/name".data)
          = some "work".data :=
  ⟨(C6_save_forms oldCache [("/name".data, "work".data)]
      (by decide) (by decide)).1,
   (C6_save_forms oldCache [("/name".data, "work".data)]
      (by decide) (by decide)).2.2.1 "/name".data "work".data (by decide)⟩

/-- C7: the Sender's delivery attempt never propagates an exception
(every outcome of the socket path is a normal return), a delivered
attempt reports `Injected(count)` with `True`, and the four canonical
attempt results — delivered, timeout, connection refused, endpoint
missing — produce four pairwise distinct `(flag, printed message)`
outcomes; in particular a refused connection returns `False` with its
own `ERROR:` message, distinguishable from the timeout and
file-not-found reports, without raising. -/
theorem C7_outcomes (entries : Dict) :
    (∀ attempt : SockAttempt, ∃ r, inject entries attempt = Except.ok r)
      ∧ inject entries (.ok ())
          = .ok (true, .injected entries.length)
      ∧ inject entries (.error .sockTimeout) = .ok (false, .timeoutMsg)
      ∧ inject entries (.error .connRefused)
          = .ok (false, .errorMsg .connRefused)
      ∧ inject entries (.error .fileNotFound)
          = .ok (false, .errorMsg .fileNotFound)
      ∧ List.Pairwise (· ≠ ·)
          [inject entries (.ok ()),
           inject entries (.error .sockTimeout),
           inject entries (.error .connRefused),
           inject entries (.error .fileNotFound)] := by
  refine ⟨?_, rfl, rfl, rfl, rfl, ?_⟩
  · intro attempt
    rcases attempt with e | _
    · rcases e <;> exact ⟨_, rfl⟩
    · exact ⟨_, rfl⟩
  · simp [inject]

/-- C9: removing any line that (after stripping) contains no `=` and
is not an exact marker or blank — i.e. any garbage line — from the
parsed line list leaves the resulting ConfigSet unchanged, and the
spec's scenario frame with `garbage-no-equals` interleaved between
`a=1` and `b=2` parses to exactly those two pairs. -/
theorem C9_garbage_skipped (pre post : List Str) (g : Str)
    (h : '=' ∉ strip g) :
    parseLines (pre ++ g :: post) = parseLines (pre ++ post)
      ∧ parseFrame
          "QUBESDB-KVM-CONFIG\na=1\ngarbage-no-equals\nb=2\n\nQUBESDB-END\n".data
          = [("a".data, "1".data), ("b".data, "2".data)] :=
  ⟨parseLines_skip_garbage pre post g h, by decide⟩

/-- Witness for C9 at the scenario's garbage line. -/
theorem C9_garbage_skipped_witness :
    parseLines (["a=1".data] ++ "garbage-no-equals".data :: ["b=2".data])
        = parseLines (["a=1".data] ++ ["b=2".data])
      ∧ parseFrame
          "QUBESDB-KVM-CONFIG\na=1\ngarbage-no-equals\nb=2\n\nQUBESDB-END\n".data
          = [("a".data, "1".data), ("b".data, "2".data)] :=
  C9_garbage_skipped ["a=1".data] ["b=2".data] "garbage-no-equals".data
    (by decide)

/-- C10 (implicit): the Receiver strips each line before marker
matching and `=`-splitting, so in every parsed frame no key starts
with whitespace and no value ends with whitespace; a value sent with a
trailing space is not reproduced verbatim, and a marker line padded
with whitespace is still recognised as a marker and skipped. -/
theorem C10_strip_lines (text : Str) (k v : Str)
    (h : (k, v) ∈ parseFrame text) :
    (headNotWs k = true ∧ lastNotWs v = true)
      ∧ parseFrame (renderPayload [("k".data, "v ".data)])
          = [("k".data, "v".data)]
      ∧ parseLines ["  QUBESDB-END\t".data] = [] := by
  refine ⟨?_, by decide, by decide⟩
  rw [parseFrame, parseLines] at h
  exact foldl_parseLine_pairs (splitlines text) [] (by simp) (k, v) h

/-- Witness for C10 on a concrete parsed frame. -/
theorem C10_strip_lines_witness :
    headNotWs "a".data = true ∧ lastNotWs "1".data = true :=
  (C10_strip_lines "QUBESDB-KVM-CONFIG\na=1\n\nQUBESDB-END\n".data
    "a".data "1".data (by decide)).1

end QubesKVM
